import Mathlib

/-!
Shallow embedding of the chess blunder-puzzle widget controller of
`src/js/chess-puzzle.js` (a static personal-website repository).

The external chess-rules engine (chess.js) and board renderer
(chessboard.js) are collaborators; they are modelled as oracles
(`Lib`) exposing exactly the interface the controller consumes:
attempt-move (object or SAN form), list-legal-moves, and SAN of a
move, with a three-way outcome (legal move returned / null returned /
exception thrown).  The engine wrapper `Engine` records the current
FEN together with the stack of previous FENs, mirroring chess.js's
exact undo of the last move.

JavaScript specifics that matter to the claims are modelled
explicitly: `Array.prototype.sort` comparator results that are `NaN`
(from subtracting an `Invalid Date`) are treated as `+0` per the
ECMAScript `SortCompare` step, and the sort is stable (ES2019+); the
embedding fixes a stable insertion sort.  `Math.floor(Math.random() *
k)` is modelled as the floor of `q * k` for a rational draw
`0 ≤ q < 1`.
-/

/-- JavaScript `s.substring(a, b)` for `a ≤ b` (the only usage pattern
in the source). -/
def jsSub (s : String) (a b : Nat) : String :=
  ((s.data.drop a).take (b - a)).asString

/-- A puzzle record of `puzzles.json` (schema of spec §6; consumed in
`src/js/chess-puzzle.js`).  Optional JSON fields are `Option`;
`timestamp` is kept as the raw string (the code parses it with
`new Date(...)`, modelled by a date-parsing oracle). -/
structure Puzzle where
  fen : String
  pre_blunder_fen : Option String
  blundered_move : String
  blundered_move_uci : String
  player_color : String
  eval_change : Int
  difficulty : Int
  solution : List String
  game_url : Option String
  timestamp : String
  show_solution_text : Option Bool
deriving DecidableEq, Repr, Inhabited

/-- Oracle for JavaScript `Date.parse` / `new Date(string)`:
`some ms` for a parseable timestamp, `none` for an `Invalid Date`
(whose numeric value is `NaN`).  `new Date('')` is an Invalid Date,
so the oracle is `none` on `""`. -/
def DateOracle : Type := String → Option Int

/-- The sort comparator of `loadPuzzles` (src/js/chess-puzzle.js:57-62):
`dateB - dateA`.  If either date is invalid the subtraction is `NaN`,
which the ECMAScript `SortCompare` step coerces to `+0`, i.e. the two
elements compare equal. -/
def tsCmp (P : DateOracle) (a b : Puzzle) : Int :=
  match P a.timestamp, P b.timestamp with
  | some x, some y => y - x
  | _, _ => 0

/-- Insert `x` into `l`, before the first element `y` with
`cmp x y < 0`.  Building block of the stable sort below. -/
def insCmp (cmp : α → α → Int) (x : α) : List α → List α
  | [] => [x]
  | y :: ys => if cmp x y < 0 then x :: y :: ys else y :: insCmp cmp x ys

/-- Stable comparator sort modelling `Array.prototype.sort(cmp)`
(stable per ES2019; for an inconsistent comparator the ECMAScript
order is implementation-defined, and this embedding fixes a stable
insertion sort — the counterexamples below use two-element lists, on
which every stable sort agrees). -/
def sortJs (cmp : α → α → Int) (l : List α) : List α :=
  l.foldl (fun acc x => insCmp cmp x acc) []

/-- The puzzle-list computation of `loadPuzzles`
(src/js/chess-puzzle.js:54-65): copy, sort by timestamp descending,
then filter to `eval_change >= 500`. -/
def loadPuzzlesList (P : DateOracle) (data : List Puzzle) : List Puzzle :=
  (sortJs (tsCmp P) data).filter (fun p => 500 ≤ p.eval_change)

/-- Modelled from the spec's words (for the refinement comparison of
claim C1 only): a comparator under which a puzzle with an unparseable
timestamp sorts "as if it had the earliest possible timestamp", i.e.
last in descending order. -/
def specTsCmp (P : DateOracle) (a b : Puzzle) : Int :=
  match P a.timestamp, P b.timestamp with
  | some x, some y => y - x
  | none, some _ => 1
  | some _, none => -1
  | none, none => 0

/-- Modelled from the spec's words (claim C1 comparison): filtered
list ordered by timestamp descending with unparseable timestamps
treated as earliest. -/
def specLoadList (P : DateOracle) (data : List Puzzle) : List Puzzle :=
  (sortJs (specTsCmp P) data).filter (fun p => 500 ≤ p.eval_change)

/-- Descending sort key used to state sortedness: the parsed
timestamp, defaulting to 0 (only used under a hypothesis that every
timestamp parses). -/
def dKey (P : DateOracle) (p : Puzzle) : Int :=
  (P p.timestamp).getD 0

/-- The "Try Another" click handler's index choice
(src/js/chess-puzzle.js:518-537).  `q` models the `Math.random()`
draw, `0 ≤ q < 1`; `Math.floor (q * k)` is the rational floor. -/
def selectAnother (n : Nat) (cur : Nat) (q : ℚ) : Nat :=
  if 1 < n then
    if cur = 0 then
      (⌊q * ((n : ℚ) - 1)⌋).toNat + 1
    else
      let r := (⌊q * ((n : ℚ) - 1)⌋).toNat
      if cur ≤ r then r + 1 else r
  else 0

-- concrete instances used by counterexamples and witnesses

/-- Concrete date oracle: parses only `"2024-01-01"`. -/
def parseEx : DateOracle := fun s =>
  if s = "2024-01-01" then some 1704067200000 else none

/-- A puzzle with an unparseable timestamp. -/
def pExA : Puzzle :=
  { fen := "fenA", pre_blunder_fen := none, blundered_move := "",
    blundered_move_uci := "", player_color := "white",
    eval_change := 600, difficulty := 3, solution := [],
    game_url := none, timestamp := "not-a-date",
    show_solution_text := none }

/-- A puzzle with a parseable timestamp. -/
def pExB : Puzzle :=
  { fen := "fenB", pre_blunder_fen := none, blundered_move := "",
    blundered_move_uci := "", player_color := "white",
    eval_change := 700, difficulty := 3, solution := [],
    game_url := none, timestamp := "2024-01-01",
    show_solution_text := none }

-- the rules-engine collaborator and the controller's move handling

/-- A move as requested of the engine:
`game.move({from, to, promotion})`.  `src`/`dst` model the source's
`from`/`to` keys (`from` is a Lean keyword). -/
structure MoveInput where
  src : String
  dst : String
  promotion : Option String
deriving DecidableEq, Repr

/-- A (verbose) move object as returned by the engine: `from`/`to`
squares, the `promotion` field (present only on promotion moves) and
the generated SAN. -/
structure MoveRec where
  src : String
  dst : String
  promotion : Option String
  san : String
deriving DecidableEq, Repr

/-- Outcome of a call into the chess.js library: a legal move object
together with the resulting FEN, a `null` return, or a thrown
exception. -/
inductive MvOut where
  | ok (r : MoveRec) (newFen : String)
  | illegal
  | thrown
deriving DecidableEq, Repr

/-- The external chess.js surface the controller consumes
(spec §6 collaborators), as oracles indexed by the current FEN. -/
structure Lib where
  moveI : String → MoveInput → MvOut
  moveS : String → String → MvOut
  legal : String → List MoveRec
  sanOf : String → MoveRec → String

/-- The live engine instance: current FEN plus the stack of previous
FENs (chess.js's `undo` exactly restores the previous state). -/
structure Engine where
  current : String
  past : List String
deriving DecidableEq, Repr

/-- `game.move({from, to, promotion})`: on success the previous FEN is
pushed onto the history; a `null` return or a thrown exception leaves
the engine unchanged. -/
def Engine.moveO (L : Lib) (g : Engine) (mi : MoveInput) : MvOut × Engine :=
  match L.moveI g.current mi with
  | .ok r f => (.ok r f, ⟨f, g.current :: g.past⟩)
  | .illegal => (.illegal, g)
  | .thrown => (.thrown, g)

/-- `game.move(sanString)`. -/
def Engine.moveSanO (L : Lib) (g : Engine) (san : String) : MvOut × Engine :=
  match L.moveS g.current san with
  | .ok r f => (.ok r f, ⟨f, g.current :: g.past⟩)
  | .illegal => (.illegal, g)
  | .thrown => (.thrown, g)

/-- `game.undo()`: restore the previous FEN (no-op on empty history,
as in chess.js). -/
def Engine.undo (g : Engine) : Engine :=
  match g.past with
  | [] => g
  | f :: rest => ⟨f, rest⟩

/-- Split a UCI string the way the source does:
`substring(0,2)`, `substring(2,4)`, and `substring(4,5)` when
`length > 4` else `undefined`. -/
def parseUci (uci : String) : MoveInput :=
  ⟨jsSub uci 0 2, jsSub uci 2 4,
    if 4 < uci.length then some (jsSub uci 4 5) else none⟩

/-- chess.js `turn()` is the side-to-move field of the FEN; the
turn-indicator text of `updateTurnIndicator`
(src/js/chess-puzzle.js:377-383). -/
def turnOf (fen : String) : String :=
  if (fen.splitOn " ").getD 1 "w" = "b" then "Black" else "White"

/-- `uciToSan` (src/js/chess-puzzle.js:291-309): apply the move to the
live engine, read back the SAN and undo; on a `null` return fall back
to returning the UCI string unchanged.  The first component is `none`
exactly when the library call threw (the exception propagates, there
is no try/catch here); a throw leaves the engine unchanged. -/
def uciToSan (L : Lib) (g : Engine) (uci : String) : Option String × Engine :=
  if uci = "" then (some uci, g)
  else
    match Engine.moveO L g (parseUci uci) with
    | (.ok r _, g') => (some r.san, g'.undo)
    | (.illegal, g') => (some uci, g')
    | (.thrown, g') => (none, g')

/-- DOM surface touched by the move handlers. -/
structure Ui where
  boardPos : String
  highlight : Option (String × String)
  solutionVisible : Bool
  solutionMoveText : String
  solutionExplanation : String
  feedback : Option String
  turnText : String
deriving DecidableEq, Repr

/-- The "correct" annotation markup of src/js/chess-puzzle.js:349. -/
def spanCorrect (san : String) : String :=
  "<span class=\"correct-move\">" ++ san ++ " ✓</span>"

/-- The "incorrect" annotation markup of src/js/chess-puzzle.js:356. -/
def spanIncorrect (san : String) : String :=
  "<span class=\"incorrect-move\">" ++ san ++ " ✗</span>"

/-- The user move's UCI encoding of src/js/chess-puzzle.js:343:
`source + target + (move.promotion || '')`. -/
def userMoveUci (source target : String) (promotion : Option String) : String :=
  source ++ target ++ promotion.getD ""

/-- Result of the `onDrop` handler: whether `'snapback'` was returned,
the engine and DOM afterwards, whether the 1500 ms revert timer was
scheduled, and whether an exception escaped the handler. -/
structure DropResult where
  snapback : Bool
  game : Engine
  ui : Ui
  revertScheduled : Bool
  threw : Bool
deriving DecidableEq, Repr

/-- `onDrop` (src/js/chess-puzzle.js:324-369).  The attempted move
always requests promotion `'q'`; an illegal move snaps back with no
state change; a legal move is highlighted, its UCI encoding is
compared as a string against `solution[0]`, and on mismatch the
solution panel shows the incorrect annotation plus
`uciToSan(solution[0])` — evaluated on the engine with the user's
move still applied — and the 1500 ms revert timer is scheduled. -/
def onDrop (L : Lib) (sol0 : String) (g : Engine) (ui : Ui)
    (source target : String) : DropResult :=
  match Engine.moveO L g ⟨source, target, some "q"⟩ with
  | (.illegal, g') => ⟨true, g', ui, false, false⟩
  | (.thrown, g') => ⟨false, g', ui, false, true⟩
  | (.ok r _, g') =>
    let ui1 := { ui with highlight := some (source, target),
                         turnText := turnOf g'.current }
    if userMoveUci source target r.promotion = sol0 then
      ⟨false, g',
        { ui1 with solutionVisible := true,
                   solutionMoveText := spanCorrect r.san,
                   feedback := some "correct" }, false, false⟩
    else
      let ui2 := { ui1 with solutionVisible := true }
      match uciToSan L g' sol0 with
      | (none, g2) => ⟨false, g2, ui2, false, true⟩
      | (some s, g2) =>
        let txt := spanIncorrect r.san ++ ". The correct move was " ++ s ++ "."
        ⟨false, g2,
          { ui2 with solutionMoveText := txt,
                     feedback := some "incorrect" }, true, false⟩

/-- The 1500 ms timer body of the mismatch branch
(src/js/chess-puzzle.js:362-367): `game.undo()`,
`board.position(game.fen())`, clear highlights, update the turn
indicator. -/
def revertTimeout (g : Engine) (ui : Ui) : Engine × Ui :=
  let g2 := g.undo
  (g2, { ui with boardPos := g2.current, highlight := none,
                 turnText := turnOf g2.current })

/-- `onSnapEnd` (src/js/chess-puzzle.js:371-374). -/
def onSnapEnd (g : Engine) (ui : Ui) : Ui :=
  { ui with boardPos := g.current }

/-- `showSolution` click handler (src/js/chess-puzzle.js:471-516):
guard on a missing puzzle or missing/empty solution list, then show
the panel, apply `solution[0]` with promotion defaulted to `'q'`, and
on success update board, highlight, turn, text and feedback (a `null`
move only logs a warning; the panel stays visible). -/
def showSolution (L : Lib) (g : Engine) (ui : Ui) (cur : Option Puzzle) :
    Engine × Ui :=
  match cur with
  | none => (g, ui)
  | some p =>
    match p.solution with
    | [] => (g, ui)
    | uci :: _ =>
      let ui1 := { ui with solutionVisible := true }
      let mi0 := parseUci uci
      let mi := { mi0 with promotion := some (mi0.promotion.getD "q") }
      match Engine.moveO L g mi with
      | (.ok r _, g') =>
        (g', { ui1 with boardPos := g'.current,
                        highlight := some (mi0.src, mi0.dst),
                        turnText := turnOf g'.current,
                        solutionMoveText := spanCorrect r.san,
                        feedback := some "correct" })
      | (_, g') => (g', ui1)

-- the blunder-replay phase of displayPuzzle

/-- The catch block of the blunder replay
(src/js/chess-puzzle.js:213-218): scan `game.moves({verbose: true})`
for a move whose SAN matches, and re-apply it via `game.move`; a
throw from that inner call is uncaught. -/
def catchScan (L : Lib) (g : Engine) (san : String) :
    Except Unit (Option MoveRec) × Engine :=
  match (L.legal g.current).find? (fun m => L.sanOf g.current m == san) with
  | none => (.ok none, g)
  | some m =>
    match Engine.moveO L g ⟨m.src, m.dst, m.promotion⟩ with
    | (.ok r _, g') => (.ok (some r), g')
    | (.illegal, g') => (.ok none, g')
    | (.thrown, g') => (.error (), g')

/-- The try/catch of the blunder replay
(src/js/chess-puzzle.js:194-219): the UCI form is attempted when the
recorded UCI string is truthy (non-empty), otherwise the SAN form; a
`null` return leaves `move` unset with no further fallback; only a
thrown exception reaches the catch block's linear scan. -/
def applyBlunderMove (L : Lib) (g : Engine) (uci san : String) :
    Except Unit (Option MoveRec) × Engine :=
  if uci ≠ "" then
    match Engine.moveO L g (parseUci uci) with
    | (.ok r _, g') => (.ok (some r), g')
    | (.illegal, g') => (.ok none, g')
    | (.thrown, _) => catchScan L g san
  else
    match Engine.moveSanO L g san with
    | (.ok r _, g') => (.ok (some r), g')
    | (.illegal, g') => (.ok none, g')
    | (.thrown, _) => catchScan L g san

/-- Outcome of the 1000 ms blunder-replay timer body. -/
structure BlunderOutcome where
  game : Engine
  boardPos : String
  draggable : Bool
  instructions : String
  highlight : Option (String × String)
  scheduled1500 : Bool
deriving DecidableEq, Repr

/-- The 1000 ms timer body of `displayPuzzle`
(src/js/chess-puzzle.js:187-288).  `hl` is the highlight state on
entry (cleared earlier by `displayPuzzle`).  On a produced move:
highlight it, animate the board to the new FEN, schedule the 1500 ms
continuation (dragging still disabled).  On no move: log only, set
"Find the Best Move!", and rebuild the board draggable at the current
position.  `.error` marks an uncaught exception from the catch
block's inner `game.move`. -/
def blunderStep (L : Lib) (g : Engine) (hl : Option (String × String))
    (uci san : String) : Except Unit BlunderOutcome :=
  match applyBlunderMove L g uci san with
  | (.error _, _) => .error ()
  | (.ok (some r), g') =>
    .ok ⟨g', g'.current, false, "Watch My Blunder...",
         some (r.src, r.dst), true⟩
  | (.ok none, g') =>
    .ok ⟨g', g'.current, true, "Find the Best Move!", hl, false⟩

-- displayPuzzle and the widget state

/-- Collection metadata used for the attribution line
(src/js/chess-puzzle.js:45-51, 119). -/
structure PuzzleMeta where
  platform : String
  username : String
deriving DecidableEq, Repr

/-- The five-level difficulty label table with default
`"Intermediate"` (src/js/chess-puzzle.js:132-139). -/
def difficultyLabel (n : Int) : String :=
  if n = 1 then "Very Easy"
  else if n = 2 then "Easy"
  else if n = 3 then "Intermediate"
  else if n = 4 then "Challenging"
  else if n = 5 then "Advanced"
  else "Intermediate"

/-- `(c / 100).toFixed(1)` over exact rationals: round `c` centipawns
to the nearest tenth of a pawn, ties toward the larger value, and
render with one decimal digit. -/
def toFixed1 (c : Int) : String :=
  let n : Int := (c + 5).fdiv 10
  let sign := if n < 0 then "-" else ""
  sign ++ toString (n.natAbs / 10) ++ "." ++ toString (n.natAbs % 10)

/-- The game-attribution line of src/js/chess-puzzle.js:119-126. -/
def gameInfoLine (meta : PuzzleMeta) (p : Puzzle) : String :=
  let base := "Game from " ++ meta.platform ++ " (" ++ meta.username ++ ")"
  match p.game_url with
  | some u => base ++ " <a href=\"" ++ u ++
      "\" target=\"_blank\" class=\"game-link\">" ++
      "<i class=\"fas fa-external-link-alt\"></i> View Game</a>"
  | none => base

/-- The controller's transient state (spec §3 WidgetState plus the
rendered text fields `displayPuzzle` writes). -/
structure ControllerState where
  currentPuzzleIndex : Nat
  game : Engine
  ui : Ui
  boardOrient : String
  draggable : Bool
  instructions : String
  gameInfoText : String
  evalText : String
  difficultyText : String
  pendingBlunder : Bool
deriving DecidableEq, Repr

/-- `displayPuzzle(index)` (src/js/chess-puzzle.js:109-184), up to the
scheduling of the 1000 ms blunder-replay timer (`pendingBlunder`).
Returns immediately on an empty list; otherwise clamps the index into
`[0, length-1]`, renders the summary fields, hides the solution
panel, clears highlights, re-initializes the engine and board at the
pre-blunder position (falling back to the post-blunder FEN) with
dragging disabled. -/
def displayPuzzle (meta : PuzzleMeta) (ps : List Puzzle)
    (st : ControllerState) (index : Int) : ControllerState :=
  if ps.length = 0 then st
  else
    let idx : Nat := (max 0 (min index ((ps.length : Int) - 1))).toNat
    let p := ps.getD idx default
    let startFen := p.pre_blunder_fen.getD p.fen
    { currentPuzzleIndex := idx
      game := ⟨startFen, []⟩
      ui := { boardPos := startFen
              highlight := none
              solutionVisible := false
              solutionMoveText := st.ui.solutionMoveText
              solutionExplanation := st.ui.solutionExplanation
              feedback := st.ui.feedback
              turnText := turnOf startFen }
      boardOrient := if p.player_color = "white" then "white" else "black"
      draggable := false
      instructions := "Watch My Blunder..."
      gameInfoText := gameInfoLine meta p
      evalText := toFixed1 p.eval_change ++ " pawns"
      difficultyText := difficultyLabel p.difficulty
      pendingBlunder := true }

/-- The full "Try Another" click handler
(src/js/chess-puzzle.js:518-538): choose an index and display it. -/
def tryAnotherClick (meta : PuzzleMeta) (ps : List Puzzle)
    (st : ControllerState) (q : ℚ) : ControllerState :=
  displayPuzzle meta ps st
    (selectAnother ps.length st.currentPuzzleIndex q)

/-- A blank DOM state used by concrete instances. -/
def uiInit : Ui :=
  { boardPos := "FA", highlight := none, solutionVisible := false,
    solutionMoveText := "", solutionExplanation := "",
    feedback := none, turnText := "White" }

/-- Witness library: exactly one legal call, the move e2-e4 (with the
handler's requested queen promotion) at FEN `"A"`, leading to FEN
`"B"`. -/
def LW : Lib :=
  { moveI := fun fen mi =>
      if fen = "A" ∧ mi = (⟨"e2", "e4", some "q"⟩ : MoveInput)
      then .ok ⟨"e2", "e4", none, "e4"⟩ "B" else .illegal
    moveS := fun _ _ => .illegal
    legal := fun _ => []
    sanOf := fun _ m => m.san }

/-- Witness library for the promotion claim: e7-e8 with queen
promotion is legal at FEN `"P"` and the returned move object carries
`promotion = "q"`. -/
def LP : Lib :=
  { moveI := fun fen mi =>
      if fen = "P" ∧ mi = (⟨"e7", "e8", some "q"⟩ : MoveInput)
      then .ok ⟨"e7", "e8", some "q", "e8=Q"⟩ "P2" else .illegal
    moveS := fun _ _ => .illegal
    legal := fun _ => []
    sanOf := fun _ m => m.san }

/-- Library of the C6 failing scenario: at FEN `"FA"` the user's legal
(but wrong) move g1-f3 leads to FEN `"FB"`; at `"FB"` it is the other
side's turn, so the recorded solution move d1-h5 is rejected
(`null`), exactly as chess.js rejects a move of the side not to
move. -/
def LBug : Lib :=
  { moveI := fun fen mi =>
      if fen = "FA" ∧ mi = (⟨"g1", "f3", some "q"⟩ : MoveInput)
      then .ok ⟨"g1", "f3", none, "Nf3"⟩ "FB" else .illegal
    moveS := fun _ _ => .illegal
    legal := fun _ => []
    sanOf := fun _ m => m.san }

/-- Library for the C8 counterexample: every object-form move call
returns null, while the SAN form of the recorded blunder would
succeed at FEN `"F0"`. -/
def LNoFallback : Lib :=
  { moveI := fun _ _ => .illegal
    moveS := fun fen san =>
      if fen = "F0" ∧ san = "e4" then .ok ⟨"e2", "e4", none, "e4"⟩ "F1"
      else .illegal
    legal := fun _ => []
    sanOf := fun _ m => m.san }

/-- Concrete date oracle parsing two timestamps (witness instance). -/
def parseEx2 : DateOracle := fun s =>
  if s = "2024-01-01" then some 1704067200000
  else if s = "2024-02-01" then some 1706745600000
  else none

/-- A second puzzle with a parseable timestamp (witness instance). -/
def pExC : Puzzle :=
  { pExB with fen := "fenC", timestamp := "2024-02-01" }

-- helper lemmas about the stable sort

theorem insCmp_perm (cmp : α → α → Int) (x : α) (l : List α) :
    List.Perm (insCmp cmp x l) (x :: l) := by
  induction l with
  | nil => simp [insCmp]
  | cons y ys ih =>
    unfold insCmp
    split
    · exact List.Perm.refl _
    · exact ((ih.cons y).trans (List.Perm.swap x y ys))

theorem sortJs_foldl_perm (cmp : α → α → Int) (l acc : List α) :
    List.Perm (List.foldl (fun a x => insCmp cmp x a) acc l) (acc ++ l) := by
  induction l generalizing acc with
  | nil => simp
  | cons x xs ih =>
    simp only [List.foldl_cons]
    refine (ih (insCmp cmp x acc)).trans ?_
    refine (((insCmp_perm cmp x acc).append_right xs).trans ?_)
    simpa using List.perm_middle.symm

theorem sortJs_perm (cmp : α → α → Int) (l : List α) :
    List.Perm (sortJs cmp l) l := by
  simpa [sortJs] using sortJs_foldl_perm cmp l []

theorem insCmp_mem {cmp : α → α → Int} {x z : α} {l : List α}
    (h : z ∈ insCmp cmp x l) : z = x ∨ z ∈ l := by
  have := (insCmp_perm cmp x l).mem_iff.mp h
  simpa using this

theorem insCmp_pairwise (cmp : α → α → Int) (k : α → Int) (Q : α → Prop)
    (hc : ∀ a b, Q a → Q b → (cmp a b < 0 ↔ k b < k a))
    (x : α) (l : List α) (hQx : Q x) (hQl : ∀ y ∈ l, Q y)
    (hp : l.Pairwise (fun a b => k b ≤ k a)) :
    (insCmp cmp x l).Pairwise (fun a b => k b ≤ k a) := by
  induction l with
  | nil => simp [insCmp]
  | cons y ys ih =>
    have hQy : Q y := hQl y (by simp)
    have hQys : ∀ z ∈ ys, Q z := fun z hz => hQl z (by simp [hz])
    rcases List.pairwise_cons.mp hp with ⟨hy, hp'⟩
    unfold insCmp
    split
    · rename_i hlt
      refine List.pairwise_cons.mpr ⟨?_, hp⟩
      intro z hz
      have hxy : k y < k x := (hc x y hQx hQy).mp hlt
      rcases List.mem_cons.mp hz with h | h
      · subst h; exact le_of_lt hxy
      · exact le_trans (hy z h) (le_of_lt hxy)
    · rename_i hnlt
      refine List.pairwise_cons.mpr ⟨?_, ih hQys hp'⟩
      intro z hz
      rcases insCmp_mem hz with h | h
      · rw [h]
        have : ¬ k y < k x := fun hk => hnlt ((hc x y hQx hQy).mpr hk)
        exact le_of_not_lt this
      · exact hy z h

theorem sortJs_foldl_pairwise (cmp : α → α → Int) (k : α → Int) (Q : α → Prop)
    (hc : ∀ a b, Q a → Q b → (cmp a b < 0 ↔ k b < k a))
    (l : List α) (hl : ∀ y ∈ l, Q y) (acc : List α)
    (hacc : ∀ y ∈ acc, Q y)
    (hpacc : acc.Pairwise (fun a b => k b ≤ k a)) :
    (List.foldl (fun a x => insCmp cmp x a) acc l).Pairwise
      (fun a b => k b ≤ k a) := by
  induction l generalizing acc with
  | nil => simpa using hpacc
  | cons x xs ih =>
    simp only [List.foldl_cons]
    have hQx : Q x := hl x (by simp)
    have hxs : ∀ y ∈ xs, Q y := fun y hy => hl y (by simp [hy])
    refine ih hxs (insCmp cmp x acc) ?_ ?_
    · intro y hy
      rcases insCmp_mem hy with h | h
      · subst h; exact hQx
      · exact hacc y h
    · exact insCmp_pairwise cmp k Q hc x acc hQx hacc hpacc

theorem sortJs_pairwise (cmp : α → α → Int) (k : α → Int) (Q : α → Prop)
    (hc : ∀ a b, Q a → Q b → (cmp a b < 0 ↔ k b < k a))
    (l : List α) (hl : ∀ y ∈ l, Q y) :
    (sortJs cmp l).Pairwise (fun a b => k b ≤ k a) := by
  simpa [sortJs] using
    sortJs_foldl_pairwise cmp k Q hc l hl [] (by simp) (by simp)

-- claim C1

/-- Claim C1 counterexample: in `loadPuzzles`, a puzzle whose
timestamp does not parse is NOT ordered as if it had the earliest
possible timestamp.  The comparator `dateB - dateA` is `NaN` against
an `Invalid Date`, which `SortCompare` treats as `+0` (equal), so the
stable sort keeps the unparseable-timestamp puzzle in its original
place: the code yields `[pExA, pExB]` where the claimed ordering
(spec-modelled `specLoadList`) yields `[pExB, pExA]`. -/
theorem loadPuzzles_unparseable_cex :
    loadPuzzlesList parseEx [pExA, pExB] = [pExA, pExB] ∧
    specLoadList parseEx [pExA, pExB] = [pExB, pExA] ∧
    parseEx pExA.timestamp = none ∧ 500 ≤ pExA.eval_change ∧
    500 ≤ pExB.eval_change := by
  decide

/-- Claim C1 (amended): after `loadPuzzles` succeeds, the active list
contains exactly the puzzles of the fetched collection with
`eval_change >= 500` (as a permutation of the filtered collection);
whenever every timestamp parses, the list is ordered by timestamp
descending; and a puzzle with an unparseable timestamp compares equal
(comparator value 0) to every other puzzle — its position is whatever
the stable sort leaves, not "as if earliest". -/
theorem loadPuzzles_filter_sort :
    (∀ (P : DateOracle) (data : List Puzzle),
      List.Perm (loadPuzzlesList P data)
        (data.filter (fun p => 500 ≤ p.eval_change))) ∧
    (∀ (P : DateOracle) (data : List Puzzle),
      (∀ p ∈ data, (P p.timestamp).isSome) →
      (loadPuzzlesList P data).Pairwise (fun a b => dKey P b ≤ dKey P a)) ∧
    (∀ (P : DateOracle) (a b : Puzzle), P a.timestamp = none →
      tsCmp P a b = 0 ∧ tsCmp P b a = 0) := by
  refine ⟨?_, ?_, ?_⟩
  · intro P data
    exact (sortJs_perm (tsCmp P) data).filter _
  · intro P data hall
    have hc : ∀ a b : Puzzle, (P a.timestamp).isSome = true →
        (P b.timestamp).isSome = true →
        (tsCmp P a b < 0 ↔ dKey P b < dKey P a) := by
      intro a b ha hb
      rcases Option.isSome_iff_exists.mp ha with ⟨x, hx⟩
      rcases Option.isSome_iff_exists.mp hb with ⟨y, hy⟩
      simp [tsCmp, dKey, hx, hy, sub_neg]
    have hsorted := sortJs_pairwise (tsCmp P) (dKey P)
      (fun p => (P p.timestamp).isSome = true) hc data hall
    exact hsorted.sublist (List.filter_sublist _)
  · intro P a b ha
    constructor
    · cases hb : P b.timestamp <;> simp [tsCmp, ha, hb]
    · cases hb : P b.timestamp <;> simp [tsCmp, ha, hb]

/-- Closed witness for the amended C1 theorem at a concrete oracle
and collection. -/
theorem loadPuzzles_filter_sort_witness :
    (∀ p ∈ [pExB, pExC], (parseEx2 p.timestamp).isSome) ∧
    (loadPuzzlesList parseEx2 [pExB, pExC]).Pairwise
      (fun a b => dKey parseEx2 b ≤ dKey parseEx2 a) :=
  ⟨by decide, loadPuzzles_filter_sort.2.1 parseEx2 [pExB, pExC] (by decide)⟩

-- claims C4 and C5

theorem selectAnother_core (n cur : Nat) (q : ℚ) (hq0 : 0 ≤ q)
    (hq1 : q < 1) (hn : 1 < n) (hcur : cur < n) :
    selectAnother n cur q < n ∧ selectAnother n cur q ≠ cur ∧
      (cur = 0 → selectAnother n cur q ≠ 0) := by
  have h1 : (0 : ℚ) < (n : ℚ) - 1 := by
    have : (1 : ℚ) < (n : ℚ) := by exact_mod_cast hn
    linarith
  have h2 : q * ((n : ℚ) - 1) < (n : ℚ) - 1 := by
    have := mul_lt_mul_of_pos_right hq1 h1
    simpa using this
  have hfl : ⌊q * ((n : ℚ) - 1)⌋ < (n : ℤ) - 1 := by
    rw [Int.floor_lt]
    push_cast
    exact h2
  by_cases hc0 : cur = 0
  · subst hc0
    have hsel : selectAnother n 0 q = (⌊q * ((n : ℚ) - 1)⌋).toNat + 1 := by
      simp [selectAnother, hn]
    rw [hsel]
    omega
  · have hsel : selectAnother n cur q =
        (if cur ≤ (⌊q * ((n : ℚ) - 1)⌋).toNat
         then (⌊q * ((n : ℚ) - 1)⌋).toNat + 1
         else (⌊q * ((n : ℚ) - 1)⌋).toNat) := by
      simp [selectAnother, hn, hc0]
    rw [hsel]
    by_cases hcl : cur ≤ (⌊q * ((n : ℚ) - 1)⌋).toNat
    · rw [if_pos hcl]
      omega
    · rw [if_neg hcl]
      omega

/-- Claim C4: with a filtered list of size 1, the "Try Another"
handler redisplays index 0 for every current index and every draw;
with size greater than 1 and any current index, the chosen index is a
valid index and never equals the current one, for every draw
`0 ≤ q < 1`. -/
theorem selectAnother_valid :
    (∀ (meta : PuzzleMeta) (p : Puzzle) (st : ControllerState) (q : ℚ),
      (tryAnotherClick meta [p] st q).currentPuzzleIndex = 0) ∧
    (∀ (n cur : Nat) (q : ℚ), 0 ≤ q → q < 1 → 1 < n → cur < n →
      selectAnother n cur q < n ∧ selectAnother n cur q ≠ cur) := by
  constructor
  · intro meta p st q
    rfl
  · intro n cur q hq0 hq1 hn hcur
    exact ⟨(selectAnother_core n cur q hq0 hq1 hn hcur).1,
           (selectAnother_core n cur q hq0 hq1 hn hcur).2.1⟩

/-- Closed witness for C4 at a concrete size, index and draw. -/
theorem selectAnother_valid_witness :
    ((0 : ℚ) ≤ 1/2 ∧ (1/2 : ℚ) < 1 ∧ 1 < 3 ∧ 2 < 3) ∧
    selectAnother 3 2 (1/2) < 3 ∧ selectAnother 3 2 (1/2) ≠ 2 :=
  ⟨by norm_num,
   selectAnother_valid.2 3 2 (1/2) (by norm_num) (by norm_num)
     (by norm_num) (by norm_num)⟩

/-- Claim C5 counterexample: with two puzzles and the second one
currently displayed, a draw of 0 selects index 0 — the handler does
NOT exclude index 0 (the latest puzzle) when the current index is
nonzero. -/
theorem selectAnother_latest_cex :
    selectAnother 2 1 0 = 0 := by
  norm_num [selectAnother]

/-- Claim C5 (amended): for a filtered list of size greater than 1,
the chosen index is valid and never equals the current index; index 0
is additionally excluded only when the current index is 0 (the handler
on a nonzero current index draws from all other indices, including
0). -/
theorem selectAnother_amended :
    ∀ (n cur : Nat) (q : ℚ), 0 ≤ q → q < 1 → 1 < n → cur < n →
      selectAnother n cur q ≠ cur ∧ selectAnother n cur q < n ∧
        (cur = 0 → selectAnother n cur q ≠ 0) := by
  intro n cur q hq0 hq1 hn hcur
  exact ⟨(selectAnother_core n cur q hq0 hq1 hn hcur).2.1,
         (selectAnother_core n cur q hq0 hq1 hn hcur).1,
         (selectAnother_core n cur q hq0 hq1 hn hcur).2.2⟩

/-- Closed witness for the amended C5 theorem. -/
theorem selectAnother_amended_witness :
    ((0 : ℚ) ≤ 1/2 ∧ (1/2 : ℚ) < 1 ∧ 1 < 3 ∧ 0 < 3) ∧
    selectAnother 3 0 (1/2) ≠ 0 ∧ selectAnother 3 0 (1/2) < 3 :=
  ⟨by norm_num,
   (selectAnother_amended 3 0 (1/2) (by norm_num) (by norm_num)
      (by norm_num) (by norm_num)).2.2 rfl,
   (selectAnother_amended 3 0 (1/2) (by norm_num) (by norm_num)
      (by norm_num) (by norm_num)).2.1⟩

-- claims C2, C3, C6, C7 (onDrop and uciToSan)

theorem uciToSan_snd (L : Lib) (g : Engine) (uci : String) :
    (uciToSan L g uci).2 = g := by
  unfold uciToSan Engine.moveO
  by_cases h : uci = ""
  · simp [h]
  · simp only [if_neg h]
    cases hm : L.moveI g.current (parseUci uci)
    · simp [Engine.undo]
    · simp
    · simp

/-- Claim C7: the UCI-to-SAN conversion helper leaves no net change
in the rules engine: for every library behaviour, engine state and
UCI string, the engine after `uciToSan` (position, history and hence
turn) is exactly the engine before. -/
theorem uciToSan_no_net_change :
    ∀ (L : Lib) (g : Engine) (uci : String), (uciToSan L g uci).2 = g :=
  fun L g uci => uciToSan_snd L g uci

/-- Claim C2: a legal user move is encoded as
`source + target + (promotion or empty)` with promotion always
requested as queen, and compared as an exact string against
`solution[0]`.  Against `"e7e8q"`, the promotion move e7-e8 (engine
promotion `"q"`) is classified correct; any legal move whose UCI
encoding is `"e7e8r"` is classified incorrect. -/
theorem onDrop_uci_exact_match :
    (∀ (L : Lib) (g : Engine) (ui : Ui) (r : MoveRec) (f : String)
        (g' : Engine),
      Engine.moveO L g ⟨"e7", "e8", some "q"⟩ = (.ok r f, g') →
      r.promotion = some "q" →
      (onDrop L "e7e8q" g ui "e7" "e8").ui.feedback = some "correct" ∧
      (onDrop L "e7e8q" g ui "e7" "e8").revertScheduled = false) ∧
    (∀ (L : Lib) (g : Engine) (ui : Ui) (source target : String)
        (r : MoveRec) (f : String) (g' : Engine) (s : String),
      Engine.moveO L g ⟨source, target, some "q"⟩ = (.ok r f, g') →
      userMoveUci source target r.promotion = "e7e8r" →
      (uciToSan L g' "e7e8q").1 = some s →
      (onDrop L "e7e8q" g ui source target).ui.feedback = some "incorrect" ∧
      (onDrop L "e7e8q" g ui source target).revertScheduled = true) := by
  constructor
  · intro L g ui r f g' hm hp
    have hu : userMoveUci "e7" "e8" r.promotion = "e7e8q" := by
      rw [hp]
      rfl
    simp [onDrop, hm, hu]
  · intro L g ui source target r f g' s hm hu hsan
    have hne : userMoveUci source target r.promotion ≠ "e7e8q" := by
      rw [hu]
      decide
    rcases hts : uciToSan L g' "e7e8q" with ⟨o, g2⟩
    rw [hts] at hsan
    simp only at hsan
    subst hsan
    simp [onDrop, hm, hne, hts]

/-- Closed witness for C2 at the concrete promotion library. -/
theorem onDrop_uci_exact_match_witness :
    Engine.moveO LP ⟨"P", []⟩ ⟨"e7", "e8", some "q"⟩ =
      (.ok ⟨"e7", "e8", some "q", "e8=Q"⟩ "P2", ⟨"P2", ["P"]⟩) ∧
    (onDrop LP "e7e8q" ⟨"P", []⟩ uiInit "e7" "e8").ui.feedback =
      some "correct" ∧
    (onDrop LP "e7e8q" ⟨"P", []⟩ uiInit "e7" "e8").revertScheduled = false :=
  ⟨rfl,
   (onDrop_uci_exact_match.1 LP ⟨"P", []⟩ uiInit
      ⟨"e7", "e8", some "q", "e8=Q"⟩ "P2" ⟨"P2", ["P"]⟩ rfl rfl).1,
   (onDrop_uci_exact_match.1 LP ⟨"P", []⟩ uiInit
      ⟨"e7", "e8", some "q", "e8=Q"⟩ "P2" ⟨"P2", ["P"]⟩ rfl rfl).2⟩

theorem moveO_ok_snd (L : Lib) (g : Engine) (mi : MoveInput)
    (r : MoveRec) (f : String) (g' : Engine)
    (hm : Engine.moveO L g mi = (.ok r f, g')) :
    g' = ⟨f, g.current :: g.past⟩ := by
  unfold Engine.moveO at hm
  cases hLm : L.moveI g.current mi <;> rw [hLm] at hm
  · rw [Prod.mk.injEq] at hm
    obtain ⟨h1, h2⟩ := hm
    rw [MvOut.ok.injEq] at h1
    rw [← h2, h1.2]
  · simp at hm
  · simp at hm

theorem revertTimeout_fst (g : Engine) (u : Ui) :
    (revertTimeout g u).1 = g.undo := rfl

theorem revertTimeout_boardPos (g : Engine) (u : Ui) :
    (revertTimeout g u).2.boardPos = g.undo.current := rfl

theorem revertTimeout_highlight (g : Engine) (u : Ui) :
    (revertTimeout g u).2.highlight = none := rfl

theorem undo_push (f : String) (g : Engine) :
    (Engine.mk f (g.current :: g.past)).undo = g := rfl

/-- Claim C3: a legal user move that does not match `solution[0]`
schedules the 1500 ms revert, after which the rules engine equals the
engine immediately before the move (bit-exact FEN and history), the
displayed board position is that prior FEN, and the highlighting is
cleared. -/
theorem onDrop_incorrect_revert :
    ∀ (L : Lib) (sol0 : String) (g : Engine) (ui : Ui)
      (source target : String) (r : MoveRec) (f : String) (g' : Engine),
      Engine.moveO L g ⟨source, target, some "q"⟩ = (.ok r f, g') →
      userMoveUci source target r.promotion ≠ sol0 →
      ((uciToSan L g' sol0).1.isSome = true) →
      (onDrop L sol0 g ui source target).revertScheduled = true ∧
      (revertTimeout (onDrop L sol0 g ui source target).game
        (onDrop L sol0 g ui source target).ui).1 = g ∧
      (revertTimeout (onDrop L sol0 g ui source target).game
        (onDrop L sol0 g ui source target).ui).2.boardPos = g.current ∧
      (revertTimeout (onDrop L sol0 g ui source target).game
        (onDrop L sol0 g ui source target).ui).2.highlight = none := by
  intro L sol0 g ui source target r f g' hm hne hsome
  have hg' : g' = ⟨f, g.current :: g.past⟩ := moveO_ok_snd L g _ r f g' hm
  rcases hts : uciToSan L g' sol0 with ⟨o, g2⟩
  have hg2 : g2 = g' := by
    have h2 := uciToSan_snd L g' sol0
    rw [hts] at h2
    exact h2
  rw [hts] at hsome
  rcases ho : o with _ | s
  · rw [ho] at hsome
    simp at hsome
  · rw [ho] at hts
    have hgame : (onDrop L sol0 g ui source target).game = g2 := by
      simp [onDrop, hm, hne, hts]
    refine ⟨by simp [onDrop, hm, hne, hts], ?_, ?_,
      revertTimeout_highlight _ _⟩
    · rw [revertTimeout_fst, hgame, hg2, hg']
      exact undo_push f g
    · rw [revertTimeout_boardPos, hgame, hg2, hg', undo_push f g]

/-- Closed witness for C3 at the concrete one-move library. -/
theorem onDrop_incorrect_revert_witness :
    (Engine.moveO LW ⟨"A", []⟩ ⟨"e2", "e4", some "q"⟩ =
      (.ok ⟨"e2", "e4", none, "e4"⟩ "B", ⟨"B", ["A"]⟩) ∧
     userMoveUci "e2" "e4" none ≠ "a1a2" ∧
     (uciToSan LW ⟨"B", ["A"]⟩ "a1a2").1.isSome = true) ∧
    (revertTimeout (onDrop LW "a1a2" ⟨"A", []⟩ uiInit "e2" "e4").game
      (onDrop LW "a1a2" ⟨"A", []⟩ uiInit "e2" "e4").ui).1 = ⟨"A", []⟩ ∧
    (revertTimeout (onDrop LW "a1a2" ⟨"A", []⟩ uiInit "e2" "e4").game
      (onDrop LW "a1a2" ⟨"A", []⟩ uiInit "e2" "e4").ui).2.highlight = none :=
  have h := onDrop_incorrect_revert LW "a1a2" ⟨"A", []⟩ uiInit "e2" "e4"
    ⟨"e2", "e4", none, "e4"⟩ "B" ⟨"B", ["A"]⟩ rfl (by decide) rfl
  ⟨⟨rfl, by decide, rfl⟩, h.2.1, h.2.2.2⟩

-- claim C6

/-- Claim C6 evaluated at its failing input (code bug): after the
legal-but-wrong move g1-f3, the mismatch text is computed by applying
`solution[0]` (`"d1h5"`) to the engine with the user's move still in
place; the engine rejects it (wrong side to move), so `uciToSan`
falls back to the raw UCI string and the revealed panel shows
`d1h5`, not the SAN of the correct move. -/
theorem onDrop_mismatch_raw_uci :
    (onDrop LBug "d1h5" ⟨"FA", []⟩ uiInit "g1" "f3").ui.solutionMoveText =
      "<span class=\"incorrect-move\">Nf3 ✗</span>. The correct move was d1h5." ∧
    (onDrop LBug "d1h5" ⟨"FA", []⟩ uiInit "g1" "f3").ui.feedback =
      some "incorrect" ∧
    LBug.moveI "FB" (parseUci "d1h5") = .illegal :=
  ⟨rfl, rfl, rfl⟩

-- claim C8

/-- Claim C8 counterexample: at a library whose object-form move
always returns null but whose SAN-form move would succeed, the
blunder replay applies nothing — the claimed "falling back to its
algebraic (SAN) form if that fails" does not happen; the controller
skips straight to the user's turn. -/
theorem blunder_no_san_fallback_cex :
    blunderStep LNoFallback ⟨"F0", []⟩ none "e2e4" "e4" =
      .ok ⟨⟨"F0", []⟩, "F0", true, "Find the Best Move!", none, false⟩ ∧
    LNoFallback.moveS "F0" "e4" = .ok ⟨"e2", "e4", none, "e4"⟩ "F1" :=
  ⟨rfl, rfl⟩

/-- Claim C8 (amended): the blunder is applied via its UCI form when
the recorded UCI string is non-empty — a null result triggers no
further fallback — and via its SAN form only when the UCI string is
empty; the linear scan of legal moves runs only when the attempted
call throws; and whenever no move is produced, the controller
proceeds directly to the user's turn with dragging re-enabled on the
current position. -/
theorem blunder_apply_amended :
    (∀ (L : Lib) (g : Engine) (hl : Option (String × String))
        (uci san : String), uci ≠ "" →
      L.moveI g.current (parseUci uci) = .illegal →
      blunderStep L g hl uci san =
        .ok ⟨g, g.current, true, "Find the Best Move!", hl, false⟩) ∧
    (∀ (L : Lib) (g : Engine) (hl : Option (String × String))
        (san : String) (r : MoveRec) (f : String),
      L.moveS g.current san = .ok r f →
      blunderStep L g hl "" san =
        .ok ⟨⟨f, g.current :: g.past⟩, f, false, "Watch My Blunder...",
             some (r.src, r.dst), true⟩) ∧
    (∀ (L : Lib) (g : Engine) (uci san : String), uci ≠ "" →
      L.moveI g.current (parseUci uci) = .thrown →
      applyBlunderMove L g uci san = catchScan L g san) ∧
    (∀ (L : Lib) (g : Engine) (hl : Option (String × String))
        (uci san : String), uci ≠ "" →
      L.moveI g.current (parseUci uci) = .thrown →
      (L.legal g.current).find? (fun m => L.sanOf g.current m == san) =
        none →
      blunderStep L g hl uci san =
        .ok ⟨g, g.current, true, "Find the Best Move!", hl, false⟩) := by
  refine ⟨?_, ?_, ?_, ?_⟩
  · intro L g hl uci san hne hI
    simp [blunderStep, applyBlunderMove, Engine.moveO, hne, hI]
  · intro L g hl san r f hS
    simp [blunderStep, applyBlunderMove, Engine.moveSanO, hS]
  · intro L g uci san hne hI
    simp [applyBlunderMove, Engine.moveO, hne, hI]
  · intro L g hl uci san hne hI hscan
    simp [blunderStep, applyBlunderMove, catchScan, Engine.moveO, hne, hI,
      hscan]

/-- Closed witness for the amended C8 theorem (UCI present, null
result, no fallback, straight to the user's turn). -/
theorem blunder_apply_amended_witness :
    ("e2e4" ≠ (("" : String)) ∧
     LNoFallback.moveI "F0" (parseUci "e2e4") = .illegal) ∧
    blunderStep LNoFallback ⟨"F0", []⟩ none "e2e4" "xx" =
      .ok ⟨⟨"F0", []⟩, "F0", true, "Find the Best Move!", none, false⟩ :=
  ⟨⟨by decide, rfl⟩,
   blunder_apply_amended.1 LNoFallback ⟨"F0", []⟩ none "e2e4" "xx"
     (by decide) rfl⟩

-- claims C9 and C10

/-- Claim C9: invoking the show-solution handler when the active
puzzle is missing, or when its solution array is empty, is a no-op:
the panel is not shown and the engine and DOM are unchanged (the
guard returns before any effect). -/
theorem showSolution_empty_noop :
    (∀ (L : Lib) (g : Engine) (ui : Ui),
      showSolution L g ui none = (g, ui)) ∧
    (∀ (L : Lib) (g : Engine) (ui : Ui) (p : Puzzle),
      p.solution = [] → showSolution L g ui (some p) = (g, ui)) := by
  constructor
  · intro L g ui
    rfl
  · intro L g ui p hp
    simp [showSolution, hp]

/-- Closed witness for C9 at a concrete empty-solution puzzle. -/
theorem showSolution_empty_noop_witness :
    pExA.solution = [] ∧
    showSolution LW ⟨"A", []⟩ uiInit (some pExA) = (⟨"A", []⟩, uiInit) :=
  ⟨rfl, showSolution_empty_noop.2 LW ⟨"A", []⟩ uiInit pExA rfl⟩

/-- Claim C10: `displayPuzzle(index)` on an empty filtered list is a
complete no-op for every index, including out-of-range and negative
ones — the early return precedes the clamp, and no state, engine,
board or rendered-text field changes. -/
theorem displayPuzzle_empty_noop :
    ∀ (meta : PuzzleMeta) (st : ControllerState) (index : Int),
      displayPuzzle meta [] st index = st := by
  intro meta st index
  rfl
